import Mathlib

/-!
Shallow embedding of `src/main.py` (doubao_tester): a latency tester for
chat-completion endpoints.  The embedding covers `DouBaoTester.test_model`,
`DouBaoTester.list_models`, `TestWorker.run` and
`LatencyTesterFrame.update_model_list`.

Modelling conventions:
* Wall-clock time (`time.time()`) is a function `clock : Nat → ℚ`; the n-th
  call of `time.time()` inside one `test_model` invocation reads `clock n`
  (call 0 is `start_time`).  Monotonicity of the clock is a hypothesis where
  a claim needs it.
* The network is an input: the value produced by
  `client.chat.completions.create` is a `Response`, which is either a stream
  of items (each item a chunk, or an exception raised while iterating), a
  complete (non-streaming) message, or an exception raised by the call itself.
* Python dict results are records; a key that a branch of the code does not
  put into the dict is `Option.none`, and for keys the code explicitly sets
  to Python `None` (`first_token_time`, `total_time` on failure) `none` is
  that `None` value.
* Python string length and slicing act on code points, as do `String.length`
  and `String.take` here.
-/

/-- A streamed delta (`choice.delta`): optional `reasoning_content` and
`content` attributes; `none` stands for a missing attribute or `None`. -/
structure Delta where
  reasoning_content : Option String
  content : Option String
deriving DecidableEq, Repr

/-- One element of `chunk.choices`. -/
structure Choice where
  delta : Option Delta
deriving DecidableEq, Repr

/-- One streamed chunk. -/
structure Chunk where
  choices : List Choice
deriving DecidableEq, Repr

/-- One event observed while iterating the stream: either a chunk, or an
exception raised mid-stream (`isArk` tells whether it is an `ArkAPIError`;
`msg` is the `str()` of the exception). -/
inductive StreamItem where
  | chunk (c : Chunk)
  | err (isArk : Bool) (msg : String)
deriving DecidableEq, Repr

/-- The message body of a non-streaming completion choice. -/
structure MessageObj where
  content : Option String
deriving DecidableEq, Repr

/-- One choice of a non-streaming completion. -/
structure CompletionChoice where
  message : Option MessageObj
deriving DecidableEq, Repr

/-- A non-streaming (single-shot) completion. -/
structure Completion where
  choices : List CompletionChoice
deriving DecidableEq, Repr

/-- What `client.chat.completions.create` produces: a stream, a complete
message, or an exception raised by the call itself. -/
inductive Response where
  | stream (items : List StreamItem)
  | completion (c : Completion)
  | createError (isArk : Bool) (msg : String)
deriving DecidableEq, Repr

/-- An exception caught by `test_model`: whether it is an `ArkAPIError`,
and the `str()` of the exception object. -/
structure ArkError where
  isArk : Bool
  msg : String
deriving DecidableEq, Repr

/-- The result dict built by `test_model` (src/main.py lines 132-159).
`response_length`, `response_preview` and `error` are `none` exactly when
the corresponding key is absent from the dict; `first_token_time` and
`total_time` are `none` when the dict holds Python `None`. -/
structure TestResult where
  model : String
  first_token_time : Option ℚ
  total_time : Option ℚ
  success : Bool
  response_length : Option Nat
  response_preview : Option String
  error : Option String
  timestamp : Nat
deriving DecidableEq, Repr

/-- The chat-completion request issued by `test_model` (the arguments of
`client.chat.completions.create`, src/main.py lines 93-99).  `thinking` is
the `type` string of the thinking payload, or `none` for a `None` payload;
messages are (role, content) pairs. -/
structure ChatRequest where
  model : String
  messages : List (String × String)
  stream : Bool
  temperature : ℚ
  max_tokens : Nat
  thinking : Option String
deriving DecidableEq, Repr

/-- The loop state of the stream-consuming part of `test_model`:
`first_token_time` (already an elapsed duration), the `collected_parts`
list, and the index of the next `time.time()` call. -/
structure StState where
  first_token_time : Option ℚ
  parts : List String
  idx : Nat
deriving DecidableEq, Repr

/-- The text contributed by one delta (src/main.py lines 111-115): the
reasoning fragment, if truthy, then the content fragment, if truthy. -/
def pieceOfDelta (d : Delta) : String :=
  (match d.reasoning_content with
   | some r => if r = "" then "" else r
   | none => "") ++
  (match d.content with
   | some c => if c = "" then "" else c
   | none => "")

/-- The body of the loop over `chunk.choices` (src/main.py lines 107-120)
for one choice: skip a missing delta and an empty piece; on the first
non-empty piece record `first_token_time = time.time() - start_time`;
append every piece. -/
def stepChoice (clock : Nat → ℚ) (ch : Choice) (st : StState) : StState :=
  match ch.delta with
  | none => st
  | some d =>
    let piece := pieceOfDelta d
    if piece = "" then st
    else
      match st.first_token_time with
      | none => ⟨some (clock st.idx - clock 0), st.parts ++ [piece], st.idx + 1⟩
      | some t => ⟨some t, st.parts ++ [piece], st.idx⟩

/-- The inner loop over `chunk.choices`. -/
def processChoices (clock : Nat → ℚ) : List Choice → StState → StState
  | [], st => st
  | ch :: rest, st => processChoices clock rest (stepChoice clock ch st)

/-- The loop over the stream (src/main.py lines 104-120): a chunk with no
choices contributes nothing; an exception raised while iterating propagates
out of the loop. -/
def runStream (clock : Nat → ℚ) : List StreamItem → StState → Except ArkError StState
  | [], st => .ok st
  | .err isArk msg :: _, _ => .error ⟨isArk, msg⟩
  | .chunk c :: rest, st => runStream clock rest (processChoices clock c.choices st)

/-- The non-streaming branch (src/main.py lines 121-127): if there is a
first choice whose message has truthy content, collect it and record
`first_token_time`. -/
def completionState (clock : Nat → ℚ) (comp : Completion) : StState :=
  match comp.choices with
  | [] => ⟨none, [], 1⟩
  | ch :: _ =>
    match ch.message with
    | none => ⟨none, [], 1⟩
    | some mo =>
      match mo.content with
      | none => ⟨none, [], 1⟩
      | some c =>
        if c = "" then ⟨none, [], 1⟩
        else ⟨some (clock 1 - clock 0), [c], 2⟩

/-- The success dict (src/main.py lines 129-140), built from the final loop
state: `total_time` is one more clock reading, `first_token_time` falls
back to `total_time` when no token was seen, and the preview truncates at
100 characters with an ellipsis marker. -/
def successResult (clock : Nat → ℚ) (model_name : String) (st : StState)
    (now : Nat) : TestResult :=
  let total_time := clock st.idx - clock 0
  let full_response := String.join st.parts
  { model := model_name
    first_token_time := some (st.first_token_time.getD total_time)
    total_time := some total_time
    success := true
    response_length := some full_response.length
    response_preview :=
      some (if full_response.length > 100 then full_response.take 100 ++ "..."
            else full_response)
    error := none
    timestamp := now }

/-- The failure dict (src/main.py lines 142-159): the `ArkAPIError` handler
and the generic handler differ only in the error-message prefix. -/
def errorResult (model_name : String) (e : ArkError) (now : Nat) : TestResult :=
  { model := model_name
    first_token_time := none
    total_time := none
    success := false
    response_length := none
    response_preview := none
    error := some ((if e.isArk then "Ark API 错误: " else "未知错误: ") ++ e.msg)
    timestamp := now }

/-- The `thinking` payload (src/main.py lines 86-88): a recognized
`thinking_type` becomes a payload carrying that type; anything else leaves
the payload `None`. -/
def thinking_payload (thinking_type : String) : Option String :=
  if thinking_type = "disabled" ∨ thinking_type = "enabled" ∨ thinking_type = "auto"
  then some thinking_type else none

/-- The messages list (src/main.py lines 77-80): a truthy system prompt
becomes a system message, then the user message. -/
def buildMessages (system_prompt : Option String) (message : String) :
    List (String × String) :=
  (match system_prompt with
   | some s => if s = "" then [] else [("system", s)]
   | none => []) ++ [("user", message)]

/-- `DouBaoTester.test_model` (src/main.py lines 69-159).  Returns the
request passed to `client.chat.completions.create` together with the result
dict.  `response` is what the call produces (stream, complete message, or
an exception); `now` stands for `datetime.now()`. -/
def test_model (clock : Nat → ℚ) (model_name message : String)
    (system_prompt : Option String) (thinking_type : String)
    (response : Response) (now : Nat) : ChatRequest × TestResult :=
  let req : ChatRequest :=
    { model := model_name
      messages := buildMessages system_prompt message
      stream := true
      temperature := (0.8 : ℚ)
      max_tokens := 512
      thinking := thinking_payload thinking_type }
  let outcome : Except ArkError StState :=
    match response with
    | .createError isArk msg => .error ⟨isArk, msg⟩
    | .stream items => runStream clock items ⟨none, [], 1⟩
    | .completion comp => .ok (completionState clock comp)
  match outcome with
  | .error e => (req, errorResult model_name e now)
  | .ok st => (req, successResult clock model_name st now)

/-- The first exception raised while iterating a stream, if any. -/
def firstErr : List StreamItem → Option ArkError
  | [] => none
  | .chunk _ :: rest => firstErr rest
  | .err isArk msg :: _ => some ⟨isArk, msg⟩

/-- Whether a response makes `test_model` take an `except` branch: the
`create` call raised, or the stream raises while being iterated. -/
def Response.fails : Response → Option ArkError
  | .createError isArk msg => some ⟨isArk, msg⟩
  | .stream items => firstErr items
  | .completion _ => none

/-- The pieces one choice appends to `collected_parts`: none for a missing
delta or an empty piece, else the one piece. -/
def choicePieces (ch : Choice) : List String :=
  match ch.delta with
  | none => []
  | some d => if pieceOfDelta d = "" then [] else [pieceOfDelta d]

/-- The non-empty pieces contributed by the choices of one chunk, in
iteration order. -/
def choicesPieces : List Choice → List String
  | [] => []
  | ch :: rest => choicePieces ch ++ choicesPieces rest

/-- Whether one choice carries a non-empty fragment. -/
def choiceHasToken (ch : Choice) : Bool :=
  match ch.delta with
  | none => false
  | some d => pieceOfDelta d ≠ ""

/-- Whether any choice of the list carries a non-empty fragment. -/
def choicesHaveToken : List Choice → Bool
  | [] => false
  | ch :: rest => choiceHasToken ch || choicesHaveToken rest

/-- The non-empty pieces an error-free stream yields, in order. -/
def streamPieces : List StreamItem → List String
  | [] => []
  | .chunk c :: rest => choicesPieces c.choices ++ streamPieces rest
  | .err _ _ :: _ => []

/-- The full accumulated text of an error-free stream: the concatenation of
all appended fragments, reasoning text before content text within one
delta. -/
def streamText (items : List StreamItem) : String :=
  String.join (streamPieces items)

/-- Whether a stream yields at least one non-empty content fragment. -/
def streamHasToken : List StreamItem → Bool
  | [] => false
  | .chunk c :: rest => choicesHaveToken c.choices || streamHasToken rest
  | .err _ _ :: rest => streamHasToken rest

/-- The notifications `TestWorker.run` posts to the UI thread via
`wx.CallAfter` (src/main.py lines 187-203). -/
inductive WorkerEvent where
  | progress (current total : Nat) (model : String)
  | result (r : TestResult)
  | completed (rs : List TestResult)
deriving DecidableEq

/-- The results collected by the worker loop (src/main.py lines 182-199),
starting at position `i` of the model list.  `tm i m` is the `TestResult`
that testing model `m` as the `i`-th invocation produces (the network
environment of that invocation); `stopAt i` is the value the stop-event
check before iteration `i` reads. -/
def workerResultsAux (tm : Nat → String → TestResult) (stopAt : Nat → Bool) :
    List String → Nat → List TestResult
  | [], _ => []
  | m :: rest, i =>
    if stopAt i then []
    else tm i m :: workerResultsAux tm stopAt rest (i + 1)

/-- The list carried by the completion notification of `TestWorker.run`. -/
def workerResults (tm : Nat → String → TestResult) (stopAt : Nat → Bool)
    (models : List String) : List TestResult :=
  workerResultsAux tm stopAt models 0

/-- `TestWorker.run` (src/main.py lines 181-203): the full notification
sequence.  Each iteration that passes the stop check emits a progress
notification, runs the test, and emits the result; the loop ends with one
completion notification carrying everything accumulated so far. -/
def workerRunAux (tm : Nat → String → TestResult) (stopAt : Nat → Bool) :
    List String → Nat → Nat → List TestResult → List WorkerEvent
  | [], _, _, results => [.completed results]
  | m :: rest, i, total, results =>
    if stopAt i then [.completed results]
    else
      .progress (i + 1) total m :: .result (tm i m) ::
        workerRunAux tm stopAt rest (i + 1) total (results ++ [tm i m])

/-- `TestWorker.run` over a model list, from a fresh state. -/
def workerRun (tm : Nat → String → TestResult) (stopAt : Nat → Bool)
    (models : List String) : List WorkerEvent :=
  workerRunAux tm stopAt models 0 models.length []

/-- Python `str.strip()` with no argument: drop leading and trailing
whitespace (modelled over ASCII whitespace characters). -/
def pyStrip (s : String) : String :=
  String.mk (((s.data.dropWhile Char.isWhitespace).reverse.dropWhile
    Char.isWhitespace).reverse)

/-- `LatencyTesterFrame.update_model_list` (src/main.py lines 523-531): the
cleaning loop, carrying the `seen` set (as a list with membership) and the
`unique_models` accumulator. -/
def updateModelListAux : List String → List String → List String → List String
  | [], _, unique => unique
  | m :: rest, seen, unique =>
    let name := pyStrip m
    if name = "" ∨ name ∈ seen then updateModelListAux rest seen unique
    else updateModelListAux rest (name :: seen) (unique ++ [name])

/-- The cleaned, deduplicated model list `update_model_list` computes and
installs as `current_models`. -/
def update_model_list (models : List String) : List String :=
  updateModelListAux models [] []

/-- A decoded JSON value as Python sees it, covering the shapes
`list_models` discriminates on (`dict`, `list`, `str`) plus numbers and
`None` for the rest. -/
inductive PyVal where
  | none
  | str (s : String)
  | int (n : Int)
  | list (xs : List PyVal)
  | dict (fields : List (String × PyVal))

/-- Python truthiness of a value. -/
def PyVal.truthy : PyVal → Bool
  | .none => false
  | .str s => s ≠ ""
  | .int n => n ≠ 0
  | .list xs => !xs.isEmpty
  | .dict fs => !fs.isEmpty

mutual

/-- Python `repr` of a value (string escaping inside quotes is not
reproduced; no claim depends on the rendered text of a non-atomic value). -/
def pyRepr : PyVal → String
  | .none => "None"
  | .str s => "\x27" ++ s ++ "\x27"
  | .int n => toString n
  | .list xs => "[" ++ pyReprList xs ++ "]"
  | .dict fs => "\x7b" ++ pyReprDict fs ++ "\x7d"

/-- Comma-joined `repr` of list elements. -/
def pyReprList : List PyVal → String
  | [] => ""
  | [x] => pyRepr x
  | x :: xs => pyRepr x ++ ", " ++ pyReprList xs

/-- Comma-joined `repr` of dict items. -/
def pyReprDict : List (String × PyVal) → String
  | [] => ""
  | [(k, v)] => "\x27" ++ k ++ "\x27: " ++ pyRepr v
  | (k, v) :: fs => "\x27" ++ k ++ "\x27: " ++ pyRepr v ++ ", " ++ pyReprDict fs

end

/-- Python `str` of a value. -/
def pyStr : PyVal → String
  | .str s => s
  | v => pyRepr v

/-- Python `d.get(k)`: the value under key `k`, or `None`. -/
def dictGet (fs : List (String × PyVal)) (k : String) : PyVal :=
  match fs.find? (fun p => p.1 = k) with
  | some p => p.2
  | Option.none => .none

/-- The truthiness-chained lookup
`entry.get("id") or entry.get("model") or entry.get("model_id")`
(src/main.py lines 49 and 58). -/
def entryModelId (fs : List (String × PyVal)) : PyVal :=
  let a := dictGet fs "id"
  if a.truthy then a
  else
    let b := dictGet fs "model"
    if b.truthy then b else dictGet fs "model_id"

/-- One pass of the entry loop (src/main.py lines 47-53 and 56-62),
threading the `models` accumulator: a dict entry contributes `str()` of its
truthy identifier, a string entry is appended as is, anything else is
skipped. -/
def extractModelsAux : List PyVal → List String → List String
  | [], acc => acc
  | entry :: rest, acc =>
    match entry with
    | .dict fs =>
      let mid := entryModelId fs
      if mid.truthy then extractModelsAux rest (acc ++ [pyStr mid])
      else extractModelsAux rest acc
    | .str s => extractModelsAux rest (acc ++ [s])
    | _ => extractModelsAux rest acc

/-- The identifiers extracted from a list of entries. -/
def extractModels (entries : List PyVal) : List String :=
  extractModelsAux entries []

/-- `candidate_lists` (src/main.py lines 38-45): the value of the first of
`data`, `models`, `model_infos` that is a list, else the empty list. -/
def candidateLists (fs : List (String × PyVal)) : List PyVal :=
  match dictGet fs "data" with
  | .list xs => xs
  | _ =>
    match dictGet fs "models" with
    | .list xs => xs
    | _ =>
      match dictGet fs "model_infos" with
      | .list xs => xs
      | _ => []

/-- `DouBaoTester.list_models` (src/main.py lines 32-67): extract from a
dict response via `candidate_lists`; if nothing was found and the response
is a bare list, extract from it; raise when the list is still empty. -/
def list_models (raw : PyVal) : Except String (List String) :=
  let models :=
    match raw with
    | .dict fs => extractModels (candidateLists fs)
    | _ => []
  let models :=
    if models.isEmpty then
      match raw with
      | .list entries => extractModels entries
      | _ => models
    else models
  if models.isEmpty then .error "从API响应中未找到模型列表" else .ok models

/-- Specification-side restatement of the per-entry extraction rule of the
model-listing operation: a plain string is its own identifier; an object
yields the `str()` of the first truthy one of its `id`, `model`, `model_id`
fields; anything else yields nothing.  Defined to be compared with the
extraction `list_models` performs. -/
def specEntryId : PyVal → Option String
  | .str s => some s
  | .dict fs =>
    if (dictGet fs "id").truthy then some (pyStr (dictGet fs "id"))
    else if (dictGet fs "model").truthy then some (pyStr (dictGet fs "model"))
    else if (dictGet fs "model_id").truthy then some (pyStr (dictGet fs "model_id"))
    else none
  | _ => none

/-- Specification-side restatement of the accepted response shapes: an
object carrying a `data`, `models` or `model_infos` array (first match), or
a bare array; anything else carries no entries. -/
def specEntries : PyVal → List PyVal
  | .dict fs => candidateLists fs
  | .list xs => xs
  | _ => []

/-- Specification-side list of identifiers extractable from a response. -/
def specIds (raw : PyVal) : List String :=
  (specEntries raw).filterMap specEntryId

/-- One step of first-occurrence deduplication: append the element unless
already present. -/
def dedupStep (acc : List String) (s : String) : List String :=
  if s ∈ acc then acc else acc ++ [s]

/-- Specification-side restatement of `update_model_list`: strip every
entry, drop the blank ones, and deduplicate keeping first occurrences.
Defined to be compared with `update_model_list`. -/
def cleanedKeepFirst (ms : List String) : List String :=
  ((ms.map pyStrip).filter fun s => s ≠ "").foldl dedupStep []

/-- The progress and result notifications of the worker loop, without the
final completion notification. -/
def workerBody (tm : Nat → String → TestResult) (stopAt : Nat → Bool) :
    List String → Nat → Nat → List WorkerEvent
  | [], _, _ => []
  | m :: rest, i, total =>
    if stopAt i then []
    else
      .progress (i + 1) total m :: .result (tm i m) ::
        workerBody tm stopAt rest (i + 1) total

/-- Invariant of the stream loop: a recorded first-token duration is the
difference between a clock reading strictly before the next one and the
start reading. -/
def FtOk (clock : Nat → ℚ) (st : StState) : Prop :=
  ∀ t, st.first_token_time = some t → ∃ j, j < st.idx ∧ t = clock j - clock 0

theorem stepChoice_idx_le (clock : Nat → ℚ) (ch : Choice) (st : StState) :
    st.idx ≤ (stepChoice clock ch st).idx := by
  unfold stepChoice
  cases ch.delta with
  | none => exact le_rfl
  | some d =>
    by_cases hp : pieceOfDelta d = ""
    · simp [hp]
    · cases hft : st.first_token_time <;> simp [hp, hft]

theorem stepChoice_ftOk (clock : Nat → ℚ) (ch : Choice) (st : StState)
    (h : FtOk clock st) : FtOk clock (stepChoice clock ch st) := by
  unfold stepChoice
  cases ch.delta with
  | none => exact h
  | some d =>
    by_cases hp : pieceOfDelta d = ""
    · simpa [hp] using h
    · cases hft : st.first_token_time with
      | none =>
        intro t ht
        simp [hp, hft] at ht
        exact ⟨st.idx, by simp [hp, hft], ht.symm⟩
      | some t0 =>
        intro t ht
        simp [hp, hft] at ht
        obtain ⟨j, hj, he⟩ := h t0 hft
        exact ⟨j, by simpa [hp, hft] using hj, ht ▸ he⟩

theorem stepChoice_parts (clock : Nat → ℚ) (ch : Choice) (st : StState) :
    (stepChoice clock ch st).parts = st.parts ++ choicePieces ch := by
  unfold stepChoice choicePieces
  cases ch.delta with
  | none => simp
  | some d =>
    by_cases hp : pieceOfDelta d = ""
    · simp [hp]
    · cases hft : st.first_token_time <;> simp [hp, hft]

theorem stepChoice_of_no_token (clock : Nat → ℚ) (ch : Choice) (st : StState)
    (h : choiceHasToken ch = false) : stepChoice clock ch st = st := by
  cases hd : ch.delta with
  | none => simp [stepChoice, hd]
  | some d =>
    have hp : pieceOfDelta d = "" := by simpa [choiceHasToken, hd] using h
    simp [stepChoice, hd, hp]

theorem processChoices_idx_le (clock : Nat → ℚ) (cs : List Choice) (st : StState) :
    st.idx ≤ (processChoices clock cs st).idx := by
  induction cs generalizing st with
  | nil => exact le_rfl
  | cons ch rest ih =>
    exact le_trans (stepChoice_idx_le clock ch st) (ih (stepChoice clock ch st))

theorem processChoices_ftOk (clock : Nat → ℚ) (cs : List Choice) (st : StState)
    (h : FtOk clock st) : FtOk clock (processChoices clock cs st) := by
  induction cs generalizing st with
  | nil => exact h
  | cons ch rest ih => exact ih _ (stepChoice_ftOk clock ch st h)

theorem processChoices_parts (clock : Nat → ℚ) (cs : List Choice) (st : StState) :
    (processChoices clock cs st).parts = st.parts ++ choicesPieces cs := by
  induction cs generalizing st with
  | nil => simp [processChoices, choicesPieces]
  | cons ch rest ih =>
    simp [processChoices, choicesPieces, ih, stepChoice_parts]

theorem processChoices_of_no_token (clock : Nat → ℚ) (cs : List Choice) (st : StState)
    (h : choicesHaveToken cs = false) : processChoices clock cs st = st := by
  induction cs generalizing st with
  | nil => rfl
  | cons ch rest ih =>
    simp only [choicesHaveToken, Bool.or_eq_false_iff] at h
    simp only [processChoices, stepChoice_of_no_token clock ch st h.1]
    exact ih st h.2

theorem runStream_error_of_firstErr (clock : Nat → ℚ) (items : List StreamItem)
    (st : StState) (e : ArkError) (h : firstErr items = some e) :
    runStream clock items st = .error e := by
  induction items generalizing st with
  | nil => simp [firstErr] at h
  | cons it rest ih =>
    cases it with
    | chunk c => simp only [firstErr] at h; simp [runStream, ih _ h]
    | err isArk msg =>
      simp only [firstErr, Option.some_inj] at h
      simp [runStream, h]

theorem runStream_ok_of_no_err (clock : Nat → ℚ) (items : List StreamItem)
    (st : StState) (h : firstErr items = none) :
    ∃ st2, runStream clock items st = .ok st2 ∧
      st2.parts = st.parts ++ streamPieces items ∧
      st.idx ≤ st2.idx ∧ (FtOk clock st → FtOk clock st2) := by
  induction items generalizing st with
  | nil => exact ⟨st, rfl, by simp [streamPieces], le_rfl, fun h => h⟩
  | cons it rest ih =>
    cases it with
    | chunk c =>
      simp only [firstErr] at h
      obtain ⟨st2, h1, h2, h3, h4⟩ := ih (processChoices clock c.choices st) h
      refine ⟨st2, by simpa [runStream] using h1, ?_, ?_, ?_⟩
      · simp [h2, processChoices_parts, streamPieces]
      · exact le_trans (processChoices_idx_le clock c.choices st) h3
      · exact fun hft => h4 (processChoices_ftOk clock c.choices st hft)
    | err isArk msg => simp [firstErr] at h

theorem runStream_id_of_no_token (clock : Nat → ℚ) (items : List StreamItem)
    (st : StState) (herr : firstErr items = none)
    (htok : streamHasToken items = false) :
    runStream clock items st = .ok st := by
  induction items generalizing st with
  | nil => rfl
  | cons it rest ih =>
    cases it with
    | chunk c =>
      simp only [firstErr] at herr
      simp only [streamHasToken, Bool.or_eq_false_iff] at htok
      simp only [runStream, processChoices_of_no_token clock c.choices st htok.1]
      exact ih st herr htok.2
    | err isArk msg => simp [firstErr] at herr

theorem test_model_fst (clock : Nat → ℚ) (mn msg : String) (sp : Option String)
    (tt : String) (resp : Response) (now : Nat) :
    (test_model clock mn msg sp tt resp now).1 =
      { model := mn, messages := buildMessages sp msg, stream := true,
        temperature := (0.8 : ℚ), max_tokens := 512,
        thinking := thinking_payload tt } := by
  cases resp with
  | stream items =>
    cases h : runStream clock items ⟨none, [], 1⟩ <;> simp [test_model, h]
  | completion comp => simp [test_model]
  | createError isArk m => simp [test_model]

theorem test_model_createError (clock : Nat → ℚ) (mn msg : String)
    (sp : Option String) (tt : String) (isArk : Bool) (emsg : String) (now : Nat) :
    (test_model clock mn msg sp tt (.createError isArk emsg) now).2 =
      errorResult mn ⟨isArk, emsg⟩ now := by
  simp [test_model]

theorem test_model_stream_err (clock : Nat → ℚ) (mn msg : String)
    (sp : Option String) (tt : String) (items : List StreamItem) (now : Nat)
    (e : ArkError) (h : runStream clock items ⟨none, [], 1⟩ = .error e) :
    (test_model clock mn msg sp tt (.stream items) now).2 = errorResult mn e now := by
  simp [test_model, h]

theorem test_model_stream_ok (clock : Nat → ℚ) (mn msg : String)
    (sp : Option String) (tt : String) (items : List StreamItem) (now : Nat)
    (st2 : StState) (h : runStream clock items ⟨none, [], 1⟩ = .ok st2) :
    (test_model clock mn msg sp tt (.stream items) now).2 =
      successResult clock mn st2 now := by
  simp [test_model, h]

theorem test_model_completion_eq (clock : Nat → ℚ) (mn msg : String)
    (sp : Option String) (tt : String) (comp : Completion) (now : Nat) :
    (test_model clock mn msg sp tt (.completion comp) now).2 =
      successResult clock mn (completionState clock comp) now := by
  simp [test_model]

theorem errorResult_error_ne_empty (mn : String) (e : ArkError) (now : Nat) :
    ∃ s, (errorResult mn e now).error = some s ∧ s ≠ "" := by
  refine ⟨_, rfl, ?_⟩
  intro hc
  have hlen := congrArg String.length hc
  rw [String.length_append] at hlen
  cases h : e.isArk <;> rw [h] at hlen <;> simp at hlen <;>
    exact absurd hlen.1 (by decide)

theorem workerResultsAux_length_le (tm : Nat → String → TestResult)
    (stopAt : Nat → Bool) (ms : List String) (i c : Nat)
    (h : ∀ l, c ≤ l → stopAt (i + l) = true) :
    (workerResultsAux tm stopAt ms i).length ≤ c := by
  induction ms generalizing i c with
  | nil => simp [workerResultsAux]
  | cons m rest ih =>
    by_cases hs : stopAt i
    · simp [workerResultsAux, hs]
    · cases c with
      | zero =>
        have h0 := h 0 (le_refl 0)
        rw [Nat.add_zero] at h0
        exact absurd h0 hs
      | succ c2 =>
        have hrec := ih (i + 1) c2 (fun l hl => by
          have := h (l + 1) (by omega)
          rwa [show i + (l + 1) = i + 1 + l by omega] at this)
        simp only [workerResultsAux]
        rw [if_neg hs]
        simp only [List.length_cons]
        omega

theorem workerResultsAux_eq_mapIdx (tm : Nat → String → TestResult)
    (stopAt : Nat → Bool) (ms : List String) (i : Nat) :
    ∃ n, n ≤ ms.length ∧
      workerResultsAux tm stopAt ms i =
        List.mapIdx (fun j m => tm (i + j) m) (ms.take n) := by
  induction ms generalizing i with
  | nil => exact ⟨0, le_rfl, by simp [workerResultsAux]⟩
  | cons m rest ih =>
    by_cases hs : stopAt i
    · exact ⟨0, Nat.zero_le _, by simp [workerResultsAux, hs]⟩
    · obtain ⟨n, hn, he⟩ := ih (i + 1)
      refine ⟨n + 1, by simpa using hn, ?_⟩
      have hfun : (fun j m => tm (i + 1 + j) m) = (fun j (m : String) => tm (i + (j + 1)) m) := by
        funext j m
        congr 1
        omega
      simp only [workerResultsAux, List.take_succ_cons, List.mapIdx_cons,
        Nat.add_zero]
      rw [if_neg hs, he, hfun]

theorem workerResultsAux_length_no_stop (tm : Nat → String → TestResult)
    (ms : List String) (i : Nat) :
    (workerResultsAux tm (fun _ => false) ms i).length = ms.length := by
  induction ms generalizing i with
  | nil => rfl
  | cons m rest ih => simp [workerResultsAux, ih]

theorem workerRunAux_eq (tm : Nat → String → TestResult) (stopAt : Nat → Bool)
    (ms : List String) (i total : Nat) (acc : List TestResult) :
    workerRunAux tm stopAt ms i total acc =
      workerBody tm stopAt ms i total ++
        [.completed (acc ++ workerResultsAux tm stopAt ms i)] := by
  induction ms generalizing i acc with
  | nil => simp [workerRunAux, workerBody, workerResultsAux]
  | cons m rest ih =>
    by_cases hs : stopAt i
    · simp [workerRunAux, workerBody, workerResultsAux, hs]
    · simp [workerRunAux, workerBody, workerResultsAux, hs, ih]

theorem foldl_dedupStep_nodup (ls acc : List String) (h : acc.Nodup) :
    (ls.foldl dedupStep acc).Nodup := by
  induction ls generalizing acc with
  | nil => exact h
  | cons s rest ih =>
    simp only [List.foldl_cons]
    apply ih
    unfold dedupStep
    by_cases hs : s ∈ acc
    · simpa [hs] using h
    · simp [hs, List.nodup_append, h]

theorem mem_foldl_dedupStep (ls acc : List String) (x : String)
    (h : x ∈ ls.foldl dedupStep acc) : x ∈ acc ∨ x ∈ ls := by
  induction ls generalizing acc with
  | nil => exact Or.inl h
  | cons s rest ih =>
    simp only [List.foldl_cons] at h
    rcases ih (dedupStep acc s) h with hm | hm
    · unfold dedupStep at hm
      by_cases hs : s ∈ acc
      · rw [if_pos hs] at hm
        exact Or.inl hm
      · rw [if_neg hs] at hm
        rcases List.mem_append.mp hm with hm2 | hm2
        · exact Or.inl hm2
        · simp at hm2
          exact Or.inr (by simp [hm2])
    · exact Or.inr (List.mem_cons_of_mem s hm)

theorem updateModelListAux_eq (ms : List String) (seen unique : List String)
    (hinv : ∀ x, x ∈ seen ↔ x ∈ unique) :
    updateModelListAux ms seen unique =
      ((ms.map pyStrip).filter fun s => s ≠ "").foldl dedupStep unique := by
  induction ms generalizing seen unique with
  | nil => simp [updateModelListAux]
  | cons m rest ih =>
    simp only [updateModelListAux, List.map_cons, List.filter_cons]
    by_cases hb : pyStrip m = ""
    · rw [if_pos (Or.inl hb)]
      have ih2 := ih seen unique hinv
      rw [if_neg (by simp [hb])]
      exact ih2
    · by_cases hm : pyStrip m ∈ seen
      · rw [if_pos (Or.inr hm)]
        have hmu : pyStrip m ∈ unique := (hinv _).mp hm
        have hstep : dedupStep unique (pyStrip m) = unique := if_pos hmu
        rw [if_pos (by simp [hb]), List.foldl_cons, hstep]
        exact ih seen unique hinv
      · rw [if_neg (by simp [hb, hm])]
        have hmu : pyStrip m ∉ unique := fun hc => hm ((hinv _).mpr hc)
        have hstep : dedupStep unique (pyStrip m) = unique ++ [pyStrip m] := if_neg hmu
        rw [if_pos (by simp [hb]), List.foldl_cons, hstep]
        refine ih _ _ ?_
        intro x
        simp only [List.mem_cons, List.mem_append, List.mem_singleton, hinv x]
        tauto

theorem update_model_list_eq_spec (ms : List String) :
    update_model_list ms = cleanedKeepFirst ms :=
  updateModelListAux_eq ms [] [] (by simp)

theorem update_model_list_nodup (ms : List String) :
    (update_model_list ms).Nodup := by
  rw [update_model_list_eq_spec]
  exact foldl_dedupStep_nodup _ [] (by simp)

theorem specEntryId_dict (fs : List (String × PyVal)) :
    specEntryId (.dict fs) =
      if (entryModelId fs).truthy then some (pyStr (entryModelId fs)) else none := by
  unfold specEntryId entryModelId
  by_cases h1 : (dictGet fs "id").truthy
  · simp [h1]
  · by_cases h2 : (dictGet fs "model").truthy
    · simp [h1, h2]
    · by_cases h3 : (dictGet fs "model_id").truthy <;> simp [h1, h2, h3]

theorem extractModelsAux_eq (entries : List PyVal) (acc : List String) :
    extractModelsAux entries acc = acc ++ entries.filterMap specEntryId := by
  induction entries generalizing acc with
  | nil => simp [extractModelsAux]
  | cons e rest ih =>
    cases e with
    | dict fs =>
      by_cases h : (entryModelId fs).truthy
      · simp [extractModelsAux, h, ih, List.filterMap_cons, specEntryId_dict]
      · simp [extractModelsAux, h, ih, List.filterMap_cons, specEntryId_dict]
    | str s => simp [extractModelsAux, ih, List.filterMap_cons, specEntryId]
    | none => simp [extractModelsAux, ih, List.filterMap_cons, specEntryId]
    | int n => simp [extractModelsAux, ih, List.filterMap_cons, specEntryId]
    | list xs => simp [extractModelsAux, ih, List.filterMap_cons, specEntryId]

theorem extractModels_eq (entries : List PyVal) :
    extractModels entries = entries.filterMap specEntryId := by
  simpa using extractModelsAux_eq entries []

theorem successResult_success (clock : Nat → ℚ) (mn : String) (st : StState)
    (now : Nat) : (successResult clock mn st now).success = true := rfl

theorem successResult_first (clock : Nat → ℚ) (mn : String) (st : StState)
    (now : Nat) :
    (successResult clock mn st now).first_token_time =
      some (st.first_token_time.getD (clock st.idx - clock 0)) := rfl

theorem successResult_total (clock : Nat → ℚ) (mn : String) (st : StState)
    (now : Nat) :
    (successResult clock mn st now).total_time = some (clock st.idx - clock 0) := rfl

theorem successResult_length (clock : Nat → ℚ) (mn : String) (st : StState)
    (now : Nat) :
    (successResult clock mn st now).response_length =
      some (String.join st.parts).length := rfl

theorem successResult_preview (clock : Nat → ℚ) (mn : String) (st : StState)
    (now : Nat) :
    (successResult clock mn st now).response_preview =
      some (if (String.join st.parts).length > 100
            then (String.join st.parts).take 100 ++ "..."
            else String.join st.parts) := rfl

/-- A concrete strictly increasing clock used by the closed instances. -/
def natClock : Nat → ℚ := fun i => (i : ℚ)

theorem natClock_mono : Monotone natClock := by
  intro a b hab
  unfold natClock
  exact_mod_cast hab

/-- Claim C1: for every model test, `test_model` never raises past its own
boundary: a transport, protocol or decode failure during the call (the
`create` call raising, or the stream raising while iterated) is caught and
yields a failure result with `success = false`, `first_token_time = None`,
`total_time = None` and a non-empty human-readable error string; and a
failure does not halt the worker loop, which with no cancellation produces
one result per model in the list. -/
theorem C1_failure_contained (clock : Nat → ℚ) (mn msg : String)
    (sp : Option String) (tt : String) (resp : Response) (now : Nat)
    (e : ArkError) (hfail : resp.fails = some e) :
    (test_model clock mn msg sp tt resp now).2.success = false ∧
    (test_model clock mn msg sp tt resp now).2.first_token_time = none ∧
    (test_model clock mn msg sp tt resp now).2.total_time = none ∧
    (∃ s, (test_model clock mn msg sp tt resp now).2.error = some s ∧ s ≠ "") ∧
    ∀ (tm : Nat → String → TestResult) (models : List String),
      (workerResults tm (fun _ => false) models).length = models.length := by
  have hres : (test_model clock mn msg sp tt resp now).2 = errorResult mn e now := by
    cases resp with
    | createError isArk m2 =>
      simp only [Response.fails, Option.some_inj] at hfail
      rw [test_model_createError, hfail]
    | stream items =>
      simp only [Response.fails] at hfail
      exact test_model_stream_err clock mn msg sp tt items now e
        (runStream_error_of_firstErr clock items ⟨none, [], 1⟩ e hfail)
    | completion comp => simp [Response.fails] at hfail
  rw [hres]
  exact ⟨rfl, rfl, rfl, errorResult_error_ne_empty mn e now,
    fun tm models => workerResultsAux_length_no_stop tm models 0⟩

/-- Claim C2: for a successful test over a stream that yields at least one
non-empty content fragment, `first_token_time` is set and is at most
`total_time` (for a monotone clock). -/
theorem C2_first_token_le_total (clock : Nat → ℚ) (mn msg : String)
    (sp : Option String) (tt : String) (items : List StreamItem) (now : Nat)
    (hmono : Monotone clock) (herr : firstErr items = none)
    (htok : streamHasToken items = true) :
    (test_model clock mn msg sp tt (.stream items) now).2.success = true ∧
    ∃ t T,
      (test_model clock mn msg sp tt (.stream items) now).2.first_token_time = some t ∧
      (test_model clock mn msg sp tt (.stream items) now).2.total_time = some T ∧
      t ≤ T := by
  obtain ⟨st2, hok, _, _, hft⟩ := runStream_ok_of_no_err clock items ⟨none, [], 1⟩ herr
  rw [test_model_stream_ok clock mn msg sp tt items now st2 hok]
  have hftOk : FtOk clock st2 := hft (fun t ht => by simp at ht)
  refine ⟨successResult_success clock mn st2 now, ?_⟩
  cases hcase : st2.first_token_time with
  | none =>
    exact ⟨clock st2.idx - clock 0, clock st2.idx - clock 0,
      by rw [successResult_first, hcase, Option.getD_none],
      successResult_total clock mn st2 now, le_rfl⟩
  | some t =>
    obtain ⟨j, hj, he⟩ := hftOk t hcase
    refine ⟨t, clock st2.idx - clock 0,
      by rw [successResult_first, hcase, Option.getD_some],
      successResult_total clock mn st2 now, ?_⟩
    rw [he]
    exact sub_le_sub_right (hmono (Nat.le_of_lt hj)) _

/-- Claim C5: for a stream that terminates having yielded zero non-empty
content fragments, the success result has `first_token_time` equal to
`total_time`: the first-token time falls back to the total time. -/
theorem C5_no_token_fallback (clock : Nat → ℚ) (mn msg : String)
    (sp : Option String) (tt : String) (items : List StreamItem) (now : Nat)
    (herr : firstErr items = none) (htok : streamHasToken items = false) :
    (test_model clock mn msg sp tt (.stream items) now).2.success = true ∧
    ∃ T,
      (test_model clock mn msg sp tt (.stream items) now).2.first_token_time = some T ∧
      (test_model clock mn msg sp tt (.stream items) now).2.total_time = some T := by
  have hok := runStream_id_of_no_token clock items ⟨none, [], 1⟩ herr htok
  rw [test_model_stream_ok clock mn msg sp tt items now ⟨none, [], 1⟩ hok]
  exact ⟨rfl, clock 1 - clock 0,
    by rw [successResult_first, Option.getD_none], rfl⟩

/-- Claim C8: on stream exhaustion, the success result's `response_length`
is the length of the full accumulated text (the concatenation of all
appended fragments, reasoning text before content text within one delta),
and `response_preview` is the full text when at most 100 characters, else
its first 100 characters followed by an ellipsis marker. -/
theorem C8_length_and_preview (clock : Nat → ℚ) (mn msg : String)
    (sp : Option String) (tt : String) (items : List StreamItem) (now : Nat)
    (herr : firstErr items = none) :
    (test_model clock mn msg sp tt (.stream items) now).2.response_length =
      some (streamText items).length ∧
    (test_model clock mn msg sp tt (.stream items) now).2.response_preview =
      some (if (streamText items).length > 100
            then (streamText items).take 100 ++ "..."
            else streamText items) := by
  obtain ⟨st2, hok, hparts, _, _⟩ := runStream_ok_of_no_err clock items ⟨none, [], 1⟩ herr
  rw [test_model_stream_ok clock mn msg sp tt items now st2 hok]
  have hjoin : String.join st2.parts = streamText items := by
    rw [hparts, List.nil_append, streamText]
  rw [successResult_length, successResult_preview, hjoin]
  exact ⟨rfl, rfl⟩

/-- Claim C3, counterexample: a failure result has no `response_length` key
(`none` in the embedding), refuting the claim that every TestResult carries
a `response_length` field. -/
theorem C3_counterexample :
    (test_model (fun _ => 0) "m" "hello" none "disabled"
        (.createError true "boom") 0).2.success = false ∧
    (test_model (fun _ => 0) "m" "hello" none "disabled"
        (.createError true "boom") 0).2.response_length = none :=
  ⟨rfl, rfl⟩

/-- Claim C3, amended: a TestResult carries a `response_length` field
exactly when it is a success result; failure results omit the field. -/
theorem C3_response_length_iff_success (clock : Nat → ℚ) (mn msg : String)
    (sp : Option String) (tt : String) (resp : Response) (now : Nat) :
    ((test_model clock mn msg sp tt resp now).2.response_length).isSome =
      (test_model clock mn msg sp tt resp now).2.success := by
  cases resp with
  | createError isArk m2 => rw [test_model_createError]; rfl
  | completion comp => rw [test_model_completion_eq]; rfl
  | stream items =>
    cases h : runStream clock items ⟨none, [], 1⟩ with
    | error e => rw [test_model_stream_err clock mn msg sp tt items now e h]; rfl
    | ok st2 => rw [test_model_stream_ok clock mn msg sp tt items now st2 h]; rfl

/-- Claim C4, counterexample: for a non-streaming (complete) message the
first-token time and the total time are two separate clock readings, so
under a strictly increasing clock they differ, refuting the claim that they
are exactly equal. -/
theorem C4_counterexample :
    (test_model natClock "m" "hello" none "disabled"
        (.completion ⟨[⟨some ⟨some "hi"⟩⟩]⟩) 0).2.first_token_time ≠
      (test_model natClock "m" "hello" none "disabled"
        (.completion ⟨[⟨some ⟨some "hi"⟩⟩]⟩) 0).2.total_time := by
  rw [test_model_completion_eq]
  have hstate : completionState natClock ⟨[⟨some ⟨some "hi"⟩⟩]⟩ =
      ⟨some (natClock 1 - natClock 0), ["hi"], 2⟩ := rfl
  rw [hstate, successResult_first, successResult_total, Option.getD_some]
  intro hc
  have h2 : natClock 1 - natClock 0 = natClock 2 - natClock 0 :=
    Option.some_inj.mp hc
  unfold natClock at h2
  norm_num at h2

/-- Claim C4, amended: when the server returns a complete message whose
first choice carries truthy content, the success result records the
first-token time from the clock reading taken right after collecting the
body and the total time from the next reading, so first-token time is at
most total time (for a monotone clock; exactly equal only when the clock
does not advance between the two readings), and `response_length` is the
length of the single message body's content. -/
theorem C4_completion_first_le_total (clock : Nat → ℚ) (mn msg : String)
    (sp : Option String) (tt : String) (ch : CompletionChoice)
    (rest : List CompletionChoice) (mo : MessageObj) (c : String) (now : Nat)
    (hmono : Monotone clock) (hch : ch.message = some mo)
    (hc : mo.content = some c) (hne : c ≠ "") :
    (test_model clock mn msg sp tt (.completion ⟨ch :: rest⟩) now).2.success = true ∧
    (test_model clock mn msg sp tt (.completion ⟨ch :: rest⟩) now).2.first_token_time =
      some (clock 1 - clock 0) ∧
    (test_model clock mn msg sp tt (.completion ⟨ch :: rest⟩) now).2.total_time =
      some (clock 2 - clock 0) ∧
    clock 1 - clock 0 ≤ clock 2 - clock 0 ∧
    (test_model clock mn msg sp tt (.completion ⟨ch :: rest⟩) now).2.response_length =
      some c.length := by
  have hstate : completionState clock ⟨ch :: rest⟩ =
      ⟨some (clock 1 - clock 0), [c], 2⟩ := by
    simp [completionState, hch, hc, hne]
  rw [test_model_completion_eq, hstate]
  refine ⟨rfl, ?_, rfl, sub_le_sub_right (hmono (by omega)) _, ?_⟩
  · rw [successResult_first, Option.getD_some]
  · rw [successResult_length]
    simp [String.join]

/-- Claim C6: for every worker run, if the cancellation flag (monotone once
set) is visible at the stop check before model `k + 1`, then at most
`k + 1` models are ever started (the list of produced results has at most
`k + 1` entries), the run always ends with one completion notification
carrying exactly the results produced so far, and those results are, in
order, the outcomes of the models actually tested (a prefix of the model
list). -/
theorem C6_worker_cancellation (tm : Nat → String → TestResult)
    (stopAt : Nat → Bool) (models : List String) (k : Nat)
    (hmono : ∀ i j, i ≤ j → stopAt i = true → stopAt j = true)
    (hk : stopAt (k + 1) = true) :
    (workerResults tm stopAt models).length ≤ k + 1 ∧
    (workerRun tm stopAt models).getLast? =
      some (.completed (workerResults tm stopAt models)) ∧
    workerResults tm stopAt models =
      List.mapIdx (fun i m => tm i m)
        (models.take (workerResults tm stopAt models).length) := by
  refine ⟨?_, ?_, ?_⟩
  · apply workerResultsAux_length_le tm stopAt models 0 (k + 1)
    intro l hl
    rw [Nat.zero_add]
    exact hmono (k + 1) l hl hk
  · unfold workerRun workerResults
    rw [workerRunAux_eq]
    simp [List.getLast?_concat]
  · obtain ⟨n, hn, he⟩ := workerResultsAux_eq_mapIdx tm stopAt models 0
    have hfun : (fun j (m : String) => tm (0 + j) m) = fun j m => tm j m := by
      funext j m
      rw [Nat.zero_add]
    rw [hfun] at he
    unfold workerResults
    rw [he, List.length_mapIdx, List.length_take, Nat.min_eq_left hn]

/-- Claim C7: `list_models` accepts a response shaped either as an object
carrying a `data`, `models` or `model_infos` array or as a bare array,
extracts an identifier from each entry (a plain string entry, or an object
entry carrying a truthy `id`, `model` or `model_id`), and fails with the
explicit error exactly when no identifiers can be extracted: it equals the
specification-side extraction `specIds` wrapped in that error policy. -/
theorem C7_list_models_spec (raw : PyVal) :
    list_models raw =
      if (specIds raw).isEmpty then Except.error "从API响应中未找到模型列表"
      else Except.ok (specIds raw) := by
  cases raw with
  | dict fs =>
    simp only [list_models, specIds, specEntries, extractModels_eq]
    by_cases h : (List.filterMap specEntryId (candidateLists fs)).isEmpty
    · simp [h]
    · simp [h]
  | list xs => simp [list_models, specIds, specEntries, extractModels_eq]
  | none => simp [list_models, specIds, specEntries]
  | str s => simp [list_models, specIds, specEntries]
  | int n => simp [list_models, specIds, specEntries]

/-- Claim C9: `update_model_list` strips each entry, drops blank entries,
and removes duplicates keeping the first occurrence: on
`["x", "x", "y", " "]` it yields `["x", "y"]`, and in general it equals the
specification-side clean-and-deduplicate pipeline, is duplicate-free, and
every retained entry is a non-blank stripped input entry. -/
theorem C9_update_model_list :
    update_model_list ["x", "x", "y", " "] = ["x", "y"] ∧
    ∀ ms : List String,
      update_model_list ms = cleanedKeepFirst ms ∧
      (update_model_list ms).Nodup ∧
      ∀ s ∈ update_model_list ms, s ≠ "" ∧ s ∈ ms.map pyStrip := by
  refine ⟨by decide, ?_⟩
  intro ms
  refine ⟨update_model_list_eq_spec ms, update_model_list_nodup ms, ?_⟩
  intro s hs
  rw [update_model_list_eq_spec, cleanedKeepFirst] at hs
  rcases mem_foldl_dedupStep _ [] s hs with h | h
  · simp at h
  · refine ⟨?_, List.mem_of_mem_filter h⟩
    have := List.of_mem_filter h
    simpa using this

/-- Claim C10: `test_model` is total in `thinking_type`: for any value
outside the recognized set the request is issued with a `None` thinking
payload instead of raising, and the rest of the request and the whole
result are computed exactly as for a recognized value. -/
theorem C10_unrecognized_thinking (tt : String)
    (h : ¬(tt = "disabled" ∨ tt = "enabled" ∨ tt = "auto")) :
    thinking_payload tt = none ∧
    ∀ (clock : Nat → ℚ) (mn msg : String) (sp : Option String)
      (resp : Response) (now : Nat),
      (test_model clock mn msg sp tt resp now).1 =
        { (test_model clock mn msg sp "disabled" resp now).1 with thinking := none } ∧
      (test_model clock mn msg sp tt resp now).2 =
        (test_model clock mn msg sp "disabled" resp now).2 := by
  have hp : thinking_payload tt = none := by simp [thinking_payload, h]
  refine ⟨hp, ?_⟩
  intro clock mn msg sp resp now
  constructor
  · rw [test_model_fst, test_model_fst, hp]
  · cases resp with
    | createError isArk m2 =>
      rw [test_model_createError, test_model_createError]
    | completion comp =>
      rw [test_model_completion_eq, test_model_completion_eq]
    | stream items =>
      cases hr : runStream clock items ⟨none, [], 1⟩ with
      | error e =>
        rw [test_model_stream_err clock mn msg sp tt items now e hr,
          test_model_stream_err clock mn msg sp "disabled" items now e hr]
      | ok st2 =>
        rw [test_model_stream_ok clock mn msg sp tt items now st2 hr,
          test_model_stream_ok clock mn msg sp "disabled" items now st2 hr]

/-- A concrete stream that raises a transport error mid-iteration. -/
def c1Items : List StreamItem :=
  [.chunk ⟨[⟨some ⟨none, some "hi"⟩⟩]⟩, .err false "boom"]

/-- Witness for C1: the failure hypothesis holds at a concrete mid-stream
transport error and the theorem applies there. -/
theorem C1_witness :
    (Response.stream c1Items).fails = some ⟨false, "boom"⟩ ∧
    ((test_model natClock "m" "hello" none "disabled" (.stream c1Items) 0).2.success = false ∧
     (test_model natClock "m" "hello" none "disabled" (.stream c1Items) 0).2.first_token_time = none ∧
     (test_model natClock "m" "hello" none "disabled" (.stream c1Items) 0).2.total_time = none ∧
     (∃ s, (test_model natClock "m" "hello" none "disabled" (.stream c1Items) 0).2.error = some s ∧ s ≠ "") ∧
     ∀ (tm : Nat → String → TestResult) (models : List String),
       (workerResults tm (fun _ => false) models).length = models.length) :=
  ⟨rfl, C1_failure_contained natClock "m" "hello" none "disabled"
    (.stream c1Items) 0 ⟨false, "boom"⟩ rfl⟩

/-- A concrete error-free stream with one non-empty fragment. -/
def c2Items : List StreamItem := [.chunk ⟨[⟨some ⟨none, some "hi"⟩⟩]⟩]

/-- Witness for C2: the hypotheses hold at a concrete one-token stream and
the theorem applies there. -/
theorem C2_witness :
    Monotone natClock ∧ firstErr c2Items = none ∧ streamHasToken c2Items = true ∧
    ((test_model natClock "m" "hello" none "disabled" (.stream c2Items) 0).2.success = true ∧
     ∃ t T,
       (test_model natClock "m" "hello" none "disabled" (.stream c2Items) 0).2.first_token_time = some t ∧
       (test_model natClock "m" "hello" none "disabled" (.stream c2Items) 0).2.total_time = some T ∧
       t ≤ T) :=
  ⟨natClock_mono, rfl, by decide,
    C2_first_token_le_total natClock "m" "hello" none "disabled" c2Items 0
      natClock_mono rfl (by decide)⟩

/-- Witness for the amended C4 at a concrete complete (non-streaming)
message with body "hi". -/
theorem C4_witness :
    Monotone natClock ∧
    (CompletionChoice.mk (some ⟨some "hi"⟩)).message = some ⟨some "hi"⟩ ∧
    (MessageObj.mk (some "hi")).content = some "hi" ∧
    ("hi" : String) ≠ "" ∧
    ((test_model natClock "m" "hello" none "disabled"
        (.completion ⟨[⟨some ⟨some "hi"⟩⟩]⟩) 0).2.success = true ∧
     (test_model natClock "m" "hello" none "disabled"
        (.completion ⟨[⟨some ⟨some "hi"⟩⟩]⟩) 0).2.first_token_time =
       some (natClock 1 - natClock 0) ∧
     (test_model natClock "m" "hello" none "disabled"
        (.completion ⟨[⟨some ⟨some "hi"⟩⟩]⟩) 0).2.total_time =
       some (natClock 2 - natClock 0) ∧
     natClock 1 - natClock 0 ≤ natClock 2 - natClock 0 ∧
     (test_model natClock "m" "hello" none "disabled"
        (.completion ⟨[⟨some ⟨some "hi"⟩⟩]⟩) 0).2.response_length =
       some ("hi" : String).length) :=
  ⟨natClock_mono, rfl, rfl, by decide,
    C4_completion_first_le_total natClock "m" "hello" none "disabled"
      ⟨some ⟨some "hi"⟩⟩ [] ⟨some "hi"⟩ "hi" 0 natClock_mono rfl rfl (by decide)⟩

/-- A concrete error-free stream whose fragments are all empty. -/
def c5Items : List StreamItem :=
  [.chunk ⟨[⟨some ⟨none, some ""⟩⟩]⟩, .chunk ⟨[]⟩, .chunk ⟨[⟨none⟩]⟩]

/-- Witness for C5: the hypotheses hold at a concrete zero-token stream and
the theorem applies there. -/
theorem C5_witness :
    firstErr c5Items = none ∧ streamHasToken c5Items = false ∧
    ((test_model natClock "m" "hello" none "disabled" (.stream c5Items) 0).2.success = true ∧
     ∃ T,
       (test_model natClock "m" "hello" none "disabled" (.stream c5Items) 0).2.first_token_time = some T ∧
       (test_model natClock "m" "hello" none "disabled" (.stream c5Items) 0).2.total_time = some T) :=
  ⟨rfl, by decide,
    C5_no_token_fallback natClock "m" "hello" none "disabled" c5Items 0 rfl (by decide)⟩

/-- A concrete environment of per-invocation test results. -/
def c6tm : Nat → String → TestResult :=
  fun i m => errorResult m ⟨true, toString i⟩ 0

/-- A concrete cancellation flag first visible at the check before the
third model (index 2), as after a cancellation following the first result. -/
def c6stop : Nat → Bool := fun i => decide (2 ≤ i)

theorem c6stop_mono : ∀ i j, i ≤ j → c6stop i = true → c6stop j = true := by
  intro i j hij hi
  simp only [c6stop, decide_eq_true_eq] at hi ⊢
  omega

/-- Witness for C6 at the model list ["a", "b", "c"] with `k = 1`: at most
2 models run and the completion notification carries their results in
order. -/
theorem C6_witness :
    (∀ i j, i ≤ j → c6stop i = true → c6stop j = true) ∧
    c6stop (1 + 1) = true ∧
    ((workerResults c6tm c6stop ["a", "b", "c"]).length ≤ 1 + 1 ∧
     (workerRun c6tm c6stop ["a", "b", "c"]).getLast? =
       some (.completed (workerResults c6tm c6stop ["a", "b", "c"])) ∧
     workerResults c6tm c6stop ["a", "b", "c"] =
       List.mapIdx (fun i m => c6tm i m)
         ((["a", "b", "c"] : List String).take
           (workerResults c6tm c6stop ["a", "b", "c"]).length)) :=
  ⟨c6stop_mono, by decide,
    C6_worker_cancellation c6tm c6stop ["a", "b", "c"] 1 c6stop_mono (by decide)⟩

/-- A concrete error-free stream with reasoning and content fragments. -/
def c8Items : List StreamItem :=
  [.chunk ⟨[⟨some ⟨some "r", some "c"⟩⟩]⟩, .chunk ⟨[⟨some ⟨none, some "d"⟩⟩]⟩]

/-- Witness for C8: the no-error hypothesis holds at a concrete stream and
the theorem applies there. -/
theorem C8_witness :
    firstErr c8Items = none ∧
    ((test_model natClock "m" "hello" none "disabled" (.stream c8Items) 0).2.response_length =
       some (streamText c8Items).length ∧
     (test_model natClock "m" "hello" none "disabled" (.stream c8Items) 0).2.response_preview =
       some (if (streamText c8Items).length > 100
             then (streamText c8Items).take 100 ++ "..."
             else streamText c8Items)) :=
  ⟨rfl, C8_length_and_preview natClock "m" "hello" none "disabled" c8Items 0 rfl⟩

/-- Witness for C10 at the unrecognized thinking type "weird". -/
theorem C10_witness :
    (¬(("weird" : String) = "disabled" ∨ ("weird" : String) = "enabled" ∨
        ("weird" : String) = "auto")) ∧
    (thinking_payload "weird" = none ∧
     ∀ (clock : Nat → ℚ) (mn msg : String) (sp : Option String)
       (resp : Response) (now : Nat),
       (test_model clock mn msg sp "weird" resp now).1 =
         { (test_model clock mn msg sp "disabled" resp now).1 with thinking := none } ∧
       (test_model clock mn msg sp "weird" resp now).2 =
         (test_model clock mn msg sp "disabled" resp now).2) :=
  ⟨by decide, C10_unrecognized_thinking "weird" (by decide)⟩
